import Mathlib

/-!
Shallow embedding of the LogPulse core (`src/logpulse/main.py`): the durable
dual-counter state machine (`_load_state`, `_save_state`, `_get_next_run_ids`),
the schema-migration guard inside `save`, the scoped/global `clear_history`,
and the measured-region record construction in `_MeasureContext.__exit__`.

Modelling conventions:
- Python dicts holding counters are association lists with first-match lookup
  and replace-in-place-or-append update (Python dicts have unique keys).
- The durable counter-state file is `Option CounterState` (`none` = absent or
  unparsable) for the well-formed-state operations; raw JSON handling of
  `_load_state` is modelled separately on a `Json` type to capture the dynamic
  Python semantics (`in` membership, `.get`, uncaught `TypeError`).
- The file system is an association list from `FilePath` (base + extension,
  matching `pathlib`'s `with_suffix` behaviour) to CSV files; a CSV file is a
  header row plus rows, where rows are tagged by the writer that produced them
  (legacy payloads vs current-schema event records).
- I/O failure inside `save`'s `try` block (`except Exception: pass`) is an
  explicit boolean oracle: when set, the inspect/rename block has no effect,
  exactly as the swallowed exception leaves the file system unchanged.
- Wall-clock values (timestamp string, elapsed nanoseconds) are inputs.
-/

set_option linter.dupNamespace false

namespace LogPulse

/-- First-match lookup with Python's `dict.get(tag, 0)` default of 0. -/
def getD : List (String × Int) → String → Int
  | [], _ => 0
  | (k', v) :: rest, k => if k' = k then v else getD rest k

/-- Python `d[k] = v`: replace in place if the key exists, else append. -/
def setK : List (String × Int) → String → Int → List (String × Int)
  | [], k, v => [(k, v)]
  | (k', v') :: rest, k, v =>
      if k' = k then (k, v) :: rest else (k', v') :: setK rest k v

/-- Python `del d[k]` guarded by `if k in d` (no-op when absent). -/
def delK (l : List (String × Int)) (k : String) : List (String × Int) :=
  l.filter (fun p => p.fst ≠ k)

/-- Python `k in d` for a dict. -/
def hasKey (l : List (String × Int)) (k : String) : Bool :=
  l.any (fun p => p.fst == k)

/-- The durable counter state (`.logpulse_state.json`, well-formed case):
`global_counter` plus per-tag `session_counters`. -/
structure CounterState where
  global_counter : Int
  session_counters : List (String × Int)
  deriving DecidableEq, Repr

/-- Source `default_state = {"global_counter": 0, "session_counters": {}}`. -/
def defaultState : CounterState := ⟨0, []⟩

/-- Embeds `_load_state` on a well-formed (or absent) state file: absent or
unparsable content yields the zero default. -/
def loadState : Option CounterState → CounterState
  | none => defaultState
  | some s => s

/-- A storage path, split as `pathlib` sees it: everything before the last
extension, and the extension itself (`with_suffix` replaces `ext`). -/
structure FilePath where
  base : String
  ext : String
  deriving DecidableEq, Repr

/-- Source `self.log_dir / f"{session_tag}.csv"` (the `split_files` target). -/
def tagPath (tag : String) : FilePath := ⟨"logs/" ++ tag, ".csv"⟩

/-- Source `self.log_dir / "perf_metrics.csv"` (the shared target). -/
def mainPath : FilePath := ⟨"logs/perf_metrics", ".csv"⟩

/-- Storage target chosen at construction from `split_files`. -/
def storagePathFor (tag : String) (split_files : Bool) : FilePath :=
  if split_files then tagPath tag else mainPath

/-- Source `storage_path.with_suffix(".v1.bak")`. -/
def backupOf (p : FilePath) : FilePath := ⟨p.base, ".v1.bak"⟩

/-- One event record as built in `_MeasureContext.__exit__`; the duration is
kept as the elapsed nanoseconds input (floats abstracted). -/
structure EventRecord where
  global_run_id : Int
  session_run_id : Int
  session_tag : String
  timestamp : String
  label : String
  duration_ns : Int
  status : String
  deriving DecidableEq, Repr

/-- The per-session recorder: construction-time ids plus the in-memory buffer. -/
structure LogPulse where
  session_tag : String
  storage_path : FilePath
  global_run_id : Int
  session_run_id : Int
  records : List EventRecord
  deriving DecidableEq, Repr

/-- Embeds `_get_next_run_ids`: load, increment both counters, persist, return the
new values.  The state file is threaded explicitly. -/
def getNextRunIds (tag : String) (file : Option CounterState) :
    (Int × Int) × Option CounterState :=
  let state := loadState file
  let g := state.global_counter + 1
  let prev := getD state.session_counters tag
  let sc := setK state.session_counters tag (prev + 1)
  ((g, prev + 1), some ⟨g, sc⟩)

/-- Embeds `LogPulse.__init__(session_tag, split_files)`: claims both ids from the
counter state store and starts with an empty buffer. -/
def mkLogPulse (tag : String) (split_files : Bool) (file : Option CounterState) :
    LogPulse × Option CounterState :=
  let r := getNextRunIds tag file
  ({ session_tag := tag
     storage_path := storagePathFor tag split_files
     global_run_id := r.fst.fst
     session_run_id := r.fst.snd
     records := [] }, r.snd)

/-- A whole sequence of constructions in one process, threading the durable
counter-state file through each `__init__`. -/
def runConstructions : List String → Option CounterState → List LogPulse × Option CounterState
  | [], f => ([], f)
  | tag :: rest, f =>
      let p := mkLogPulse tag false f
      let q := runConstructions rest p.snd
      (p.fst :: q.fst, q.snd)

/-- Parsed JSON values, as returned by `json.load` (numbers restricted to the
integers that occur in counter-state files). -/
inductive Json where
  | null : Json
  | bool (b : Bool) : Json
  | num (n : Int) : Json
  | str (s : String) : Json
  | arr (xs : List Json) : Json
  | obj (kvs : List (String × Json)) : Json
  deriving Repr

/-- Python `"k" in d` for a parsed JSON object (dict key membership). -/
def jhasKey (kvs : List (String × Json)) (k : String) : Bool :=
  kvs.any (fun p => p.fst == k)

/-- Python `d.get(k, default)` for a parsed JSON object. -/
def jgetD : List (String × Json) → String → Json → Json
  | [], _, d => d
  | (k', v) :: rest, k, d => if k' = k then v else jgetD rest k d

/-- Substring test, Python `needle in haystack` on strings. -/
def containsSub (needle : List Char) : List Char → Bool
  | [] => needle.isEmpty
  | c :: rest => needle.isPrefixOf (c :: rest) || containsSub needle rest

/-- The default `{"global_counter": 0, "session_counters": {}}` as raw JSON. -/
def defaultStateJson : Json :=
  .obj [("global_counter", .num 0), ("session_counters", .obj [])]

/-- Embeds `_load_state` on the raw file content, with Python's dynamic semantics.
The argument is `none` when the file is absent, `some none` when its content
fails JSON parsing (`json.JSONDecodeError`, caught), and `some (some j)` when
it parses to the value `j`.  The membership test `"global_counter" not in
state` raises `TypeError` on numbers/booleans/null (uncaught: only
`JSONDecodeError` and `IOError` are handled), succeeds as substring search on
strings and element search on arrays, and `state.get(...)` on the legacy
branch raises `AttributeError` on any non-dict value (also uncaught). -/
def pyLoadState (file : Option (Option Json)) : Except String Json :=
  match file with
  | none => .ok defaultStateJson
  | some none => .ok defaultStateJson
  | some (some state) =>
    match state with
    | .obj kvs =>
        if jhasKey kvs "global_counter" then .ok (.obj kvs)
        else .ok (.obj [("global_counter", jgetD kvs "last_run_id" (.num 0)),
                        ("session_counters", .obj [])])
    | .arr xs =>
        if xs.any (fun j => match j with | .str s => s == "global_counter" | _ => false)
        then .ok (.arr xs)
        else .error "AttributeError"
    | .str s =>
        if containsSub "global_counter".toList s.toList then .ok (.str s)
        else .error "AttributeError"
    | _ => .error "TypeError"

/-- One row of a persisted CSV file, tagged by the schema of the writer that
produced it: opaque legacy payloads vs current-schema event records. -/
inductive Row where
  | legacy (cells : List String) : Row
  | current (e : EventRecord) : Row
  deriving DecidableEq, Repr

/-- Whether a row is a current-schema row. -/
def Row.isCurrent : Row → Bool
  | .legacy _ => false
  | .current _ => true

/-- A persisted CSV file: one header row plus data rows. -/
structure Csv where
  header : List String
  rows : List Row
  deriving DecidableEq, Repr

/-- File-system lookup (first match; paths are unique keys). -/
def fsLookup : List (FilePath × Csv) → FilePath → Option Csv
  | [], _ => none
  | (q, f) :: rest, p => if q = p then some f else fsLookup rest p

/-- Python `unlink` (no-op when the path is absent). -/
def fsRemove (l : List (FilePath × Csv)) (p : FilePath) : List (FilePath × Csv) :=
  l.filter (fun pf => pf.fst ≠ p)

/-- Write (create or overwrite) the file at `p`. -/
def fsSet (l : List (FilePath × Csv)) (p : FilePath) (f : Csv) : List (FilePath × Csv) :=
  (p, f) :: fsRemove l p

/-- The durable world: the counter-state file plus the CSV files. -/
structure World where
  stateFile : Option CounterState
  files : List (FilePath × Csv)
  deriving DecidableEq, Repr

/-- Header written for current-schema records (columns of the records built in
`_MeasureContext.__exit__`, in insertion order). -/
def currentHeader : List String :=
  ["global_run_id", "session_run_id", "session_tag", "timestamp", "label",
   "duration_sec", "status"]

/-- Source `"run_id" in existing_cols and "global_run_id" not in existing_cols`. -/
def isLegacyHeader (cols : List String) : Bool :=
  cols.contains "run_id" && !(cols.contains "global_run_id")

/-- Embeds `LogPulse.save`: no-op on an empty buffer; otherwise, if the storage file
exists, inspect its header inside a `try` block and rename a legacy file to
`with_suffix(".v1.bak")`; `except Exception: pass` swallows any failure there
(`ioFail = true` models the inspect/rename raising, which leaves the file
system unchanged); then append all buffered records, writing the header only
when the file does not exist at that point, and clear the buffer. -/
def save (ioFail : Bool) (lp : LogPulse) (w : World) : LogPulse × World :=
  if lp.records = [] then (lp, w)
  else
    let files1 :=
      match fsLookup w.files lp.storage_path with
      | some f =>
          if ioFail then w.files
          else if isLegacyHeader f.header then
            fsSet (fsRemove w.files lp.storage_path) (backupOf lp.storage_path) f
          else w.files
      | none => w.files
    let files2 :=
      match fsLookup files1 lp.storage_path with
      | some f =>
          fsSet files1 lp.storage_path ⟨f.header, f.rows ++ lp.records.map Row.current⟩
      | none =>
          fsSet files1 lp.storage_path ⟨currentHeader, lp.records.map Row.current⟩
    ({ lp with records := [] }, ⟨w.stateFile, files2⟩)

/-- Embeds `_MeasureContext.__exit__`: always appends exactly one record built from
the parent recorder's construction-time ids, with status `"SUCCESS"` or
`"ERROR: <exception kind name>"`, and returns `False` so that Python
re-raises the caller's exception unchanged.  The timestamp and the elapsed
nanoseconds are wall-clock inputs. -/
def exitRecord (lp : LogPulse) (timestamp label : String) (elapsed_ns : Int)
    (exc_type : Option String) : LogPulse × Bool :=
  ({ lp with records := lp.records ++
      [{ global_run_id := lp.global_run_id
         session_run_id := lp.session_run_id
         session_tag := lp.session_tag
         timestamp := timestamp
         label := label
         duration_ns := elapsed_ns
         status := match exc_type with
                   | none => "SUCCESS"
                   | some name => "ERROR: " ++ name }] }, false)

/-- Embeds `LogPulse.clear_history`: scoped mode deletes the calling tag's entry from
the inventory (global counter kept) and optionally unlinks the recorder's own
storage file; global mode optionally unlinks the shared file, every per-tag
file named in the pre-reset inventory and every `*.v1.bak` archive, then
resets the state to the zero default.  Either mode persists the new state.
The recorder itself is returned unchanged (the method assigns none of the
recorder's fields). -/
def clearHistory (lp : LogPulse) (session_only delete_logs : Bool) (w : World) :
    LogPulse × World :=
  let state := loadState w.stateFile
  if session_only then
    let inventory := delK state.session_counters lp.session_tag
    let files := if delete_logs then fsRemove w.files lp.storage_path else w.files
    (lp, ⟨some ⟨state.global_counter, inventory⟩, files⟩)
  else
    let files :=
      if delete_logs then
        let files1 := fsRemove w.files mainPath
        let files2 := (state.session_counters.map Prod.fst).foldl
          (fun acc tag => fsRemove acc (tagPath tag)) files1
        files2.filter (fun pf => pf.fst.ext ≠ ".v1.bak")
      else w.files
    (lp, ⟨some defaultState, files⟩)

theorem getD_setK_self (l : List (String × Int)) (k : String) (v : Int) :
    getD (setK l k v) k = v := by
  induction l with
  | nil => simp [setK, getD]
  | cons hd tl ih =>
      obtain ⟨k', v'⟩ := hd
      by_cases h : k' = k
      · simp [setK, h, getD]
      · simp [setK, h, getD, ih]

theorem getD_setK_other (l : List (String × Int)) (k k' : String) (v : Int)
    (h : k' ≠ k) : getD (setK l k' v) k = getD l k := by
  induction l with
  | nil => simp [setK, getD, h]
  | cons hd tl ih =>
      obtain ⟨k₀, v₀⟩ := hd
      by_cases h0 : k₀ = k'
      · subst h0
        simp [setK, getD, h]
      · by_cases h1 : k₀ = k
        · subst h1
          simp [setK, getD, h0]
        · simp [setK, getD, h0, h1, ih]

/-- Generalised C1: from an arbitrary starting file, the claimed global ids
are consecutive from the loaded `global_counter`. -/
theorem globalIds_consecutive (tags : List String) (f : Option CounterState) :
    ((runConstructions tags f).fst).map (fun lp => lp.global_run_id)
      = (List.range tags.length).map
          (fun i : ℕ => (loadState f).global_counter + (i : ℤ) + 1) := by
  induction tags generalizing f with
  | nil => simp [runConstructions]
  | cons t rest ih =>
      simp only [runConstructions, List.map_cons, List.length_cons,
        List.range_succ_eq_map, List.map_map]
      congr 1
      · simp [mkLogPulse, getNextRunIds]
      · rw [ih]
        simp only [mkLogPulse, getNextRunIds, loadState]
        refine List.map_congr_left ?_
        intro i _
        simp only [Function.comp]
        push_cast
        ring

/-- Generalised C2: from an arbitrary starting file, the session ids claimed
by the constructions carrying tag `t` are consecutive from the loaded
per-tag counter, independent of the other tags interleaved. -/
theorem sessionIds_consecutive (tags : List String) (t : String)
    (f : Option CounterState) :
    (((runConstructions tags f).fst).filter (fun lp => lp.session_tag == t)).map
        (fun lp => lp.session_run_id)
      = (List.range (tags.count t)).map
          (fun i : ℕ => getD (loadState f).session_counters t + (i : ℤ) + 1) := by
  induction tags generalizing f with
  | nil => simp [runConstructions]
  | cons t' rest ih =>
      by_cases h : t' = t
      · subst h
        simp only [runConstructions, mkLogPulse, getNextRunIds, List.filter_cons,
          beq_self_eq_true, if_pos, List.map_cons, List.count_cons_self,
          List.range_succ_eq_map, List.map_map, List.cons.injEq]
        refine ⟨by simp, ?_⟩
        rw [ih]
        simp only [loadState, getD_setK_self]
        refine List.map_congr_left ?_
        intro i _
        simp only [Function.comp]
        push_cast
        ring
      · have hb : (t' == t) = false := beq_false_of_ne h
        simp only [runConstructions, List.filter_cons, mkLogPulse, getNextRunIds, hb,
          Bool.false_eq_true, if_false, List.count_cons, Nat.add_zero]
        rw [ih]
        simp only [loadState, getD_setK_other _ _ _ _ h]

/-- C1: for every sequence of constructions in one process, starting from the
empty/zero counter state, the claimed `global_run_id` values are exactly
`1, 2, …, N` in construction order. -/
theorem claim_global_ids_one_to_n (tags : List String) :
    ((runConstructions tags none).fst).map (fun lp => lp.global_run_id)
      = (List.range tags.length).map (fun i : ℕ => ((i : ℤ) + 1)) := by
  rw [globalIds_consecutive]
  simp [loadState, defaultState]

/-- C2: for every sequence of constructions starting from the empty state, the
constructions sharing tag `t` claim `session_run_id` values exactly
`1, 2, …, k` in construction order, unaffected by other tags. -/
theorem claim_session_ids_one_to_k (tags : List String) (t : String) :
    (((runConstructions tags none).fst).filter (fun lp => lp.session_tag == t)).map
        (fun lp => lp.session_run_id)
      = (List.range (tags.count t)).map (fun i : ℕ => ((i : ℤ) + 1)) := by
  rw [sessionIds_consecutive]
  simp [loadState, defaultState, getD]

theorem fsLookup_fsRemove_self (l : List (FilePath × Csv)) (p : FilePath) :
    fsLookup (fsRemove l p) p = none := by
  induction l with
  | nil => rfl
  | cons hd tl ih =>
      obtain ⟨q, f⟩ := hd
      by_cases h : q = p
      · simpa [fsRemove, List.filter_cons, h] using ih
      · simpa [fsRemove, List.filter_cons, h, fsLookup] using ih

theorem fsLookup_fsRemove_other (l : List (FilePath × Csv)) (p q : FilePath)
    (h : q ≠ p) : fsLookup (fsRemove l p) q = fsLookup l q := by
  induction l with
  | nil => rfl
  | cons hd tl ih =>
      obtain ⟨q₀, f⟩ := hd
      by_cases h0 : q₀ = p
      · subst h0
        simpa [fsRemove, List.filter_cons, fsLookup, Ne.symm h] using ih
      · by_cases h1 : q₀ = q
        · subst h1
          simp [fsRemove, List.filter_cons, h0, fsLookup]
        · simpa [fsRemove, List.filter_cons, h0, fsLookup, h1] using ih

theorem fsLookup_fsSet_self (l : List (FilePath × Csv)) (p : FilePath) (f : Csv) :
    fsLookup (fsSet l p f) p = some f := by
  simp [fsSet, fsLookup]

theorem fsLookup_fsSet_other (l : List (FilePath × Csv)) (p q : FilePath) (f : Csv)
    (h : q ≠ p) : fsLookup (fsSet l p f) q = fsLookup l q := by
  simp only [fsSet, fsLookup, if_neg (Ne.symm h)]
  exact fsLookup_fsRemove_other l p q h

theorem mem_fsRemove {l : List (FilePath × Csv)} {p : FilePath}
    {x : FilePath × Csv} (hx : x ∈ fsRemove l p) : x ∈ l :=
  List.mem_of_mem_filter hx

theorem mem_fsSet {l : List (FilePath × Csv)} {p : FilePath} {f : Csv}
    {x : FilePath × Csv} (hx : x ∈ fsSet l p f) : x = (p, f) ∨ x ∈ l := by
  rcases List.mem_cons.mp hx with h | h
  · exact Or.inl h
  · exact Or.inr (mem_fsRemove h)

theorem fsLookup_mem {l : List (FilePath × Csv)} {p : FilePath} {f : Csv}
    (h : fsLookup l p = some f) : (p, f) ∈ l := by
  induction l with
  | nil => simp [fsLookup] at h
  | cons hd tl ih =>
      obtain ⟨q, g⟩ := hd
      by_cases h0 : q = p
      · subst h0
        have hg : g = f := by simpa [fsLookup] using h
        subst hg
        exact List.mem_cons_self _ _
      · simp only [fsLookup, if_neg h0] at h
        exact List.mem_cons_of_mem _ (ih h)

theorem hasKey_delK_self (l : List (String × Int)) (k : String) :
    hasKey (delK l k) k = false := by
  induction l with
  | nil => rfl
  | cons hd tl ih =>
      obtain ⟨k₀, v⟩ := hd
      by_cases h : k₀ = k
      · simpa [delK, List.filter_cons, h] using ih
      · simp only [delK, List.filter_cons] at ih ⊢
        simp [h, hasKey, ih]

theorem getD_delK_other (l : List (String × Int)) (k k' : String)
    (h : k' ≠ k) : getD (delK l k) k' = getD l k' := by
  induction l with
  | nil => rfl
  | cons hd tl ih =>
      obtain ⟨k₀, v⟩ := hd
      by_cases h0 : k₀ = k
      · subst h0
        simpa [delK, List.filter_cons, getD, Ne.symm h] using ih
      · by_cases h1 : k₀ = k'
        · subst h1
          simp [delK, List.filter_cons, h0, getD]
        · simpa [delK, List.filter_cons, h0, getD, h1] using ih

theorem tagPath_inj {t t' : String} (h : tagPath t = tagPath t') : t = t' := by
  have hb : "logs/" ++ t = "logs/" ++ t' := congrArg FilePath.base h
  have hd : ("logs/" ++ t).data = ("logs/" ++ t').data := congrArg String.data hb
  simp only [String.data_append] at hd
  exact String.ext (List.append_cancel_left hd)

/-- Sample objects used by the concrete witnesses below. -/
def sampleEvent : EventRecord :=
  { global_run_id := 2, session_run_id := 2, session_tag := "default"
    timestamp := "2026-01-01T00:00:00", label := "block"
    duration_ns := 1000, status := "SUCCESS" }

/-- A legacy-schema CSV file with one legacy row. -/
def legacyCsv : Csv :=
  { header := ["run_id", "session_tag", "duration_sec", "status"]
    rows := [Row.legacy ["1", "default", "0.5", "SUCCESS"]] }

/-- A recorder holding one buffered record, using the shared storage target. -/
def sampleRecorder : LogPulse :=
  { session_tag := "default", storage_path := mainPath
    global_run_id := 2, session_run_id := 2, records := [sampleEvent] }

/-- A world whose shared storage file is the legacy CSV. -/
def legacyWorld : World :=
  { stateFile := some ⟨1, [("default", 1)]⟩, files := [(mainPath, legacyCsv)] }

/-- C6: a measured region that raises appends exactly one event record to the
in-memory buffer, its status is the string `"ERROR: "` followed by the
exception's kind name, and `__exit__` returns `False`, so Python re-raises
the same exception unchanged to the caller. -/
theorem claim_error_region_one_record (lp : LogPulse) (timestamp label : String)
    (elapsed_ns : Int) (name : String) :
    (exitRecord lp timestamp label elapsed_ns (some name)).fst.records
        = lp.records ++
          [{ global_run_id := lp.global_run_id, session_run_id := lp.session_run_id
             session_tag := lp.session_tag, timestamp := timestamp, label := label
             duration_ns := elapsed_ns, status := "ERROR: " ++ name }] ∧
      (exitRecord lp timestamp label elapsed_ns (some name)).snd = false :=
  ⟨rfl, rfl⟩

/-- C7: calling `save()` with an empty in-memory buffer is a no-op: the
recorder, every file and the counter state are returned unchanged, and the
function is total (no exception is modelled as raised). -/
theorem claim_save_empty_noop (ioFail : Bool) (lp : LogPulse) (w : World)
    (h : lp.records = []) : save ioFail lp w = (lp, w) := by
  simp [save, h]

theorem claim_save_empty_noop_witness :
    save false { sampleRecorder with records := [] } legacyWorld
      = ({ sampleRecorder with records := [] }, legacyWorld) :=
  claim_save_empty_noop false _ _ rfl

/-- C9: clearing history (scoped or global, with or without file deletion)
never changes the calling recorder's already-claimed ids, and an event
recorded through that recorder after the clear still carries the ids claimed
at construction. -/
theorem claim_clear_preserves_claimed_ids (lp : LogPulse) (session_only delete_logs : Bool)
    (w : World) (timestamp label : String) (elapsed_ns : Int) (exc_type : Option String) :
    (clearHistory lp session_only delete_logs w).fst.global_run_id = lp.global_run_id ∧
    (clearHistory lp session_only delete_logs w).fst.session_run_id = lp.session_run_id ∧
    ((exitRecord (clearHistory lp session_only delete_logs w).fst
        timestamp label elapsed_ns exc_type).fst.records.getLast?).map
          (fun e => (e.global_run_id, e.session_run_id))
      = some (lp.global_run_id, lp.session_run_id) := by
  have hfst : (clearHistory lp session_only delete_logs w).fst = lp := by
    cases session_only <;> simp [clearHistory]
  refine ⟨by rw [hfst], by rw [hfst], ?_⟩
  rw [hfst]
  simp [exitRecord, List.getLast?_concat]

theorem currentHeader_not_legacy : isLegacyHeader currentHeader = false := by decide

/-- C4: when the storage target holds a legacy-schema file and a recorder
saves a non-empty buffer (no I/O failure), the legacy file ends up, intact,
at the single `.v1.bak` archival path, and the original path holds a fresh
current-schema file containing exactly the newly appended rows.  The
hypothesis on the extension records that every constructed recorder's storage
target is a `.csv` path, so the archival path differs from the original. -/
theorem claim_save_migrates_legacy (lp : LogPulse) (w : World) (f : Csv)
    (hf : fsLookup w.files lp.storage_path = some f)
    (hleg : isLegacyHeader f.header = true)
    (hne : lp.records ≠ [])
    (hext : lp.storage_path.ext = ".csv") :
    fsLookup (save false lp w).snd.files (backupOf lp.storage_path) = some f ∧
    fsLookup (save false lp w).snd.files lp.storage_path
      = some ⟨currentHeader, lp.records.map Row.current⟩ ∧
    isLegacyHeader currentHeader = false := by
  have hb : backupOf lp.storage_path ≠ lp.storage_path := by
    intro hcontra
    have hx : ".v1.bak" = lp.storage_path.ext := congrArg FilePath.ext hcontra
    rw [hext] at hx
    exact absurd hx (by decide)
  have h1 : fsLookup (fsSet (fsRemove w.files lp.storage_path) (backupOf lp.storage_path) f)
      lp.storage_path = none := by
    rw [fsLookup_fsSet_other _ _ _ _ (Ne.symm hb)]
    exact fsLookup_fsRemove_self _ _
  have hfiles : (save false lp w).snd.files
      = fsSet (fsSet (fsRemove w.files lp.storage_path) (backupOf lp.storage_path) f)
          lp.storage_path ⟨currentHeader, lp.records.map Row.current⟩ := by
    simp [save, hne, hf, hleg, h1]
  refine ⟨?_, ?_, currentHeader_not_legacy⟩
  · rw [hfiles, fsLookup_fsSet_other _ _ _ _ hb, fsLookup_fsSet_self]
  · rw [hfiles, fsLookup_fsSet_self]

theorem claim_save_migrates_legacy_witness :
    fsLookup (save false sampleRecorder legacyWorld).snd.files (backupOf mainPath)
        = some legacyCsv ∧
    fsLookup (save false sampleRecorder legacyWorld).snd.files mainPath
        = some ⟨currentHeader, [Row.current sampleEvent]⟩ ∧
    isLegacyHeader currentHeader = false :=
  claim_save_migrates_legacy sampleRecorder legacyWorld legacyCsv rfl (by decide)
    (by decide) rfl

/-- C8: a scoped clear with file deletion removes exactly the calling tag's
entry from `session_counters` (the global counter and every other tag's entry
are unchanged) and unlinks only the recorder's own storage file; under
per-tag storage every other tag's file, and any unrelated path, is untouched. -/
theorem claim_scoped_clear_frame (lp : LogPulse) (w : World) (t' : String) (p : FilePath)
    (hsp : lp.storage_path = tagPath lp.session_tag)
    (ht : t' ≠ lp.session_tag) (hp : p ≠ lp.storage_path) :
    (loadState (clearHistory lp true true w).snd.stateFile).global_counter
        = (loadState w.stateFile).global_counter ∧
    hasKey (loadState (clearHistory lp true true w).snd.stateFile).session_counters
        lp.session_tag = false ∧
    getD (loadState (clearHistory lp true true w).snd.stateFile).session_counters t'
        = getD (loadState w.stateFile).session_counters t' ∧
    fsLookup (clearHistory lp true true w).snd.files lp.storage_path = none ∧
    fsLookup (clearHistory lp true true w).snd.files (tagPath t')
        = fsLookup w.files (tagPath t') ∧
    fsLookup (clearHistory lp true true w).snd.files p = fsLookup w.files p := by
  have htp : tagPath t' ≠ lp.storage_path := by
    rw [hsp]
    intro hcontra
    exact ht (tagPath_inj hcontra)
  have hch : (clearHistory lp true true w).snd
      = ⟨some ⟨(loadState w.stateFile).global_counter,
               delK (loadState w.stateFile).session_counters lp.session_tag⟩,
         fsRemove w.files lp.storage_path⟩ := by
    simp [clearHistory]
  rw [hch]
  exact ⟨rfl, hasKey_delK_self _ _, getD_delK_other _ _ _ ht,
    fsLookup_fsRemove_self _ _, fsLookup_fsRemove_other _ _ _ htp,
    fsLookup_fsRemove_other _ _ _ hp⟩

/-- A current-schema CSV file with one current row. -/
def alphaCsv : Csv := ⟨currentHeader, [Row.current sampleEvent]⟩

/-- A recorder for tag `"alpha"` in per-tag storage mode, empty buffer. -/
def alphaRecorder : LogPulse :=
  { session_tag := "alpha", storage_path := tagPath "alpha"
    global_run_id := 1, session_run_id := 1, records := [] }

/-- A world with two tags in the inventory and one file per tag. -/
def twoTagWorld : World :=
  { stateFile := some ⟨5, [("alpha", 2), ("beta", 3)]⟩
    files := [(tagPath "alpha", alphaCsv), (tagPath "beta", alphaCsv)] }

theorem claim_scoped_clear_frame_witness :
    (loadState (clearHistory alphaRecorder true true twoTagWorld).snd.stateFile).global_counter
        = (loadState twoTagWorld.stateFile).global_counter ∧
    hasKey (loadState (clearHistory alphaRecorder true true twoTagWorld).snd.stateFile).session_counters
        "alpha" = false ∧
    getD (loadState (clearHistory alphaRecorder true true twoTagWorld).snd.stateFile).session_counters
        "beta"
      = getD (loadState twoTagWorld.stateFile).session_counters "beta" ∧
    fsLookup (clearHistory alphaRecorder true true twoTagWorld).snd.files (tagPath "alpha")
        = none ∧
    fsLookup (clearHistory alphaRecorder true true twoTagWorld).snd.files (tagPath "beta")
        = fsLookup twoTagWorld.files (tagPath "beta") ∧
    fsLookup (clearHistory alphaRecorder true true twoTagWorld).snd.files mainPath
        = fsLookup twoTagWorld.files mainPath :=
  claim_scoped_clear_frame alphaRecorder twoTagWorld "beta" mainPath rfl
    (by decide) (by decide)

/-- No file of the world mixes schemas: a file whose header is the legacy
schema holds no current-schema row. -/
def noMix (w : World) : Prop :=
  ∀ pf ∈ w.files, isLegacyHeader pf.snd.header = true →
    pf.snd.rows.any Row.isCurrent = false

/-- C3 counterexample: when the migration guard's inspect/rename raises (the
`except Exception: pass` path), `save` appends its current-schema rows into
the still-legacy file: afterwards the file at the storage path has the legacy
header and holds both a legacy row and a current-schema row. -/
theorem claim_c3_counterexample :
    (fsLookup (save true sampleRecorder legacyWorld).snd.files mainPath).map
        (fun f => (isLegacyHeader f.header, f.rows.any Row.isCurrent,
                   f.rows.any (fun r => !r.isCurrent)))
      = some (true, true, true) := by decide

/-- C3 amended: provided the inspect/rename of the existing storage file does
not fail (and the storage path is not itself a `.v1.bak` path, which holds
for every constructed recorder), `save` never mixes schemas: if no file held
current-schema rows under a legacy header before, none does after. -/
theorem claim_no_mix_when_guard_succeeds (lp : LogPulse) (w : World)
    (hb : backupOf lp.storage_path ≠ lp.storage_path)
    (hw : noMix w) : noMix (save false lp w).snd := by
  by_cases hrec : lp.records = []
  · simpa [save, hrec] using hw
  · cases hfs : fsLookup w.files lp.storage_path with
    | none =>
        have hfiles : (save false lp w).snd.files
            = fsSet w.files lp.storage_path ⟨currentHeader, lp.records.map Row.current⟩ := by
          simp [save, hrec, hfs]
        intro pf hpf hmix
        rw [hfiles] at hpf
        rcases mem_fsSet hpf with rfl | hmem
        · simp [currentHeader_not_legacy] at hmix
        · exact hw pf hmem hmix
    | some f =>
        by_cases hleg : isLegacyHeader f.header = true
        · have h1 : fsLookup (fsSet (fsRemove w.files lp.storage_path)
              (backupOf lp.storage_path) f) lp.storage_path = none := by
            rw [fsLookup_fsSet_other _ _ _ _ (Ne.symm hb)]
            exact fsLookup_fsRemove_self _ _
          have hfiles : (save false lp w).snd.files
              = fsSet (fsSet (fsRemove w.files lp.storage_path) (backupOf lp.storage_path) f)
                  lp.storage_path ⟨currentHeader, lp.records.map Row.current⟩ := by
            simp [save, hrec, hfs, hleg, h1]
          intro pf hpf hmix
          rw [hfiles] at hpf
          rcases mem_fsSet hpf with rfl | hmem
          · simp [currentHeader_not_legacy] at hmix
          rcases mem_fsSet hmem with rfl | hmem2
          · exact hw (lp.storage_path, f) (fsLookup_mem hfs) hmix
          · exact hw pf (mem_fsRemove hmem2) hmix
        · have hlegf : isLegacyHeader f.header = false := by
            simpa using hleg
          have hfiles : (save false lp w).snd.files
              = fsSet w.files lp.storage_path
                  ⟨f.header, f.rows ++ lp.records.map Row.current⟩ := by
            simp [save, hrec, hfs, hlegf]
          intro pf hpf hmix
          rw [hfiles] at hpf
          rcases mem_fsSet hpf with rfl | hmem
          · simp [hlegf] at hmix
          · exact hw pf hmem hmix

theorem claim_no_mix_when_guard_succeeds_witness :
    noMix (save false sampleRecorder legacyWorld).snd :=
  claim_no_mix_when_guard_succeeds sampleRecorder legacyWorld (by decide)
    (by unfold noMix; decide)

/-- C5 counterexample: a counter-state file whose content is the valid JSON
value `5` parses fine, but `"global_counter" not in state` then raises
`TypeError`, which `_load_state` does not catch (only `JSONDecodeError` and
`IOError` are): the load fails the caller instead of returning the default. -/
theorem claim_c5_counterexample :
    pyLoadState (some (some (Json.num 5))) = Except.error "TypeError" := rfl

/-- C5 amended: loading never fails and yields the zero default when the file
is absent or its content fails JSON parsing, and never fails when the content
parses to a JSON object; but for non-object JSON values the uncaught
`TypeError`/`AttributeError` can propagate to the caller. -/
theorem claim_load_state_total_amended (kvs : List (String × Json)) :
    pyLoadState none = Except.ok defaultStateJson ∧
    pyLoadState (some none) = Except.ok defaultStateJson ∧
    (pyLoadState (some (some (Json.obj kvs)))).isOk = true := by
  refine ⟨rfl, rfl, ?_⟩
  by_cases h : jhasKey kvs "global_counter" = true <;>
    simp [pyLoadState, h, Except.isOk, Except.toBool]

/-- C10: a parsable counter-state file whose top-level object lacks the
`global_counter` key is treated as legacy whatever else it contains: the
result takes `global_counter` from the deprecated `last_run_id` field (0 when
absent) and its `session_counters` is empty, discarding any `session_counters`
mapping present in the file. -/
theorem claim_legacy_state_migration (kvs : List (String × Json))
    (h : jhasKey kvs "global_counter" = false) :
    pyLoadState (some (some (Json.obj kvs)))
      = Except.ok (Json.obj [("global_counter", jgetD kvs "last_run_id" (Json.num 0)),
                             ("session_counters", Json.obj [])]) := by
  simp [pyLoadState, h]

theorem claim_legacy_state_migration_witness :
    pyLoadState (some (some (Json.obj [("last_run_id", Json.num 7),
        ("session_counters", Json.obj [("alpha", Json.num 3)])])))
      = Except.ok (Json.obj [("global_counter", Json.num 7),
                             ("session_counters", Json.obj [])]) :=
  claim_legacy_state_migration _ rfl

end LogPulse
